import Mathlib

/-!
Shallow embedding of the GeoBase command-line launcher (`GeoBaseMain.py`).

Modelling conventions:
* Python byte strings (the Python-2 `str` written to stdout) are `List Nat`
  (byte values); decoded unicode strings are `List Char` or Lean `String`.
* Python floats are an abstract linearly ordered type `V`; the external
  `float()` parser and the `'%.3f' % x` style formatting primitives are
  passed in as opaque functions, since IEEE formatting is owned by the
  Python runtime, not by this repository.
* The GeoBases backend (an external collaborator per the design) is a
  record `Backend` of opaque functions mirroring exactly the calls
  `GeoBaseMain.py` makes on it.
* `exit(1)` after an `error(...)`/`warn(...)` diagnostic is modelled with
  `Except Err`: a returned `Except.error` is a non-zero exit carrying the
  diagnostic, and by construction nothing sequenced after it runs.
-/

namespace GeoBaseMain

/-- Dataset keys (Python `str`). -/
abbrev Key := String

/-- The five optional filter stages of `main`, listed in source order. -/
inductive Stage
  | trep
  | exact
  | near
  | closest
  | fuzzy
  deriving DecidableEq

/-- The fixed stage order of the pipeline in `main` (lines 768-815). -/
def stageOrder : List Stage := [Stage.trep, Stage.exact, Stage.near, Stage.closest, Stage.fuzzy]

/-- The three `__ref__` interpretations (`'distance'`, `'percentage'`, `'index'`). -/
inductive RefType
  | distance
  | percentage
  | index
  deriving DecidableEq

/-- The diagnostics of `error(...)` / the fatal `warn('key', ...)`, each carrying
the values interpolated into the message (`GeoBaseMain.py` lines 384-429). -/
inductive Err
  | trepSupport
  | geoSupport (base : String)
  | property (offending : String) (base : String) (alts : List String)
  | field (offending : String) (base : String) (alts : List String)
  | unknownKey (k : String)
  | geocodeFormat (u : String)
  | geocodeUnknown (u : String)
  deriving DecidableEq

/-- A Python value stored in a dataset field: a plain (string) scalar or a
list/tuple/set of elements, which is what `display_quiet` discriminates on
with `isinstance(v, (list, tuple, set))`. -/
inductive PyValue
  | atom (s : String)
  | seq (l : List String)
  deriving DecidableEq

/-- Python `str()` of a list value: `['a', 'b']`.  The quote character is
built with `Char.ofNat 39`. -/
def pyListRepr (l : List String) : String :=
  let q := String.singleton (Char.ofNat 39)
  "[" ++ String.intercalate ", " (l.map (fun s => q ++ s ++ q)) ++ "]"

/-- Python `str()` on a field value. -/
def pyStr : PyValue → String
  | PyValue.atom s => s
  | PyValue.seq l => pyListRepr l

/-- Is the value a list/tuple/set? (`isinstance(v, (list, tuple, set))`). -/
def PyValue.isSeq : PyValue → Bool
  | PyValue.atom _ => false
  | PyValue.seq _ => true

/-- Elements of a sequence value (empty for scalars). -/
def PyValue.elems : PyValue → List String
  | PyValue.atom _ => []
  | PyValue.seq l => l

/-- The GeoBases backend, an external collaborator: exactly the members that
`GeoBaseMain.py` calls.  `ofNat` models Python's implicit `int` relevance
values produced by `enumerate`. -/
structure Backend (V : Type) where
  fields : List String
  contains : Key → Bool
  getLocation : Key → Option (V × V)
  get : Key → String → PyValue
  hasTrepSupport : Bool
  hasGeoSupport : Bool
  ofNat : Nat → V
  trepGet : String → String → List Key → List (V × Key)
  getKeysWhere : String → String → Bool → List Key → List Key
  findNearPoint : V × V → V → Bool → List Key → List (V × Key)
  findClosestFromPoint : V × V → Nat → Bool → List Key → List (V × Key)
  fuzzyGet : String → String → V → List Key → List (V × Key)

/-- The parsed command-line arguments used by the pipeline part of `main`
(each `Option` field is `none` when the flag was not passed; the stage
queries are already joined with `' '.join`). -/
structure Args (V : Type) where
  base : String
  trep : Option String
  trepFormat : String
  exact : Option String
  exactProperty : String
  reverse : Bool
  near : Option String
  nearLimit : V
  closest : Option String
  closestLimit : Nat
  fuzzy : Option String
  fuzzyProperty : String
  fuzzyLimit : V
  withGrid : Bool
  show_ : List String
  omit_ : List String
  limit : Option Nat

/-- Everything one invocation of `main` works with: the backend, the
arguments, and the external `float()` parser used by `scan_coords`
(`pf cs = none` models `float` raising `ValueError`). -/
structure Env (V : Type) where
  g : Backend V
  a : Args V
  pf : List Char → Option V

/-- External float-formatting primitives used by `fmt_ref` (`'%.3f' % x`,
`'%.2f' % x`, `'%.1f' % x`, `100 * x`, `int(x)`). -/
structure FloatFmt (V : Type) where
  f3 : V → String
  f2 : V → String
  f1 : V → String
  scale100 : V → V
  toInt : V → Int

/-- A `(foreground, on_background?, attrs)` triple as passed to `colored`. -/
abbrev ColorTriple := String × Option String × List String

/-- The `RotatingColors` object: the list `_availables` and the cursor
`_current`. -/
structure RotatingColors where
  availables : List ColorTriple
  current : Nat
  deriving DecidableEq

/-- `RotatingColors.__init__`: accepts exactly `'black'` and `'white'`,
raises `ValueError` otherwise (lines 110-127). -/
def RotatingColors.init (background : String) : Except String RotatingColors :=
  if background = "black" then
    Except.ok ⟨[("cyan", none, []), ("white", some "on_grey", [])], 0⟩
  else if background = "white" then
    Except.ok ⟨[("grey", none, []), ("cyan", some "on_white", [])], 0⟩
  else
    Except.error ("Accepted background color: \"black\" or \"white\", not \"" ++ background ++ "\".")

/-- `RotatingColors.next`: advance the cursor, wrapping at the end. -/
def RotatingColors.next (c : RotatingColors) : RotatingColors :=
  let cur := c.current + 1
  ⟨c.availables, if cur = c.availables.length then 0 else cur⟩

/-- `RotatingColors.get`: the current color (`_availables[_current]`; the
index is always in range for objects built by `init`, `getD` totalizes). -/
def RotatingColors.get (c : RotatingColors) : ColorTriple :=
  c.availables.getD c.current ("", none, [])

/-- `RotatingColors.getRaw`: current color with foreground forced to yellow. -/
def RotatingColors.getRaw (c : RotatingColors) : ColorTriple :=
  let t := c.get
  ("yellow", t.2.1, t.2.2)

/-- `RotatingColors.getEmph`. -/
def RotatingColors.getEmph : ColorTriple := ("white", some "on_blue", [])

/-- `RotatingColors.getHeader`. -/
def RotatingColors.getHeader : ColorTriple := ("red", none, [])

/-- `RotatingColors.getSpecial`. -/
def RotatingColors.getSpecial : ColorTriple := ("magenta", none, [])

/-- Module-level `BACKGROUND_COLOR` resolution (lines 33-47): any value other
than `'black'`/`'white'` (including an unset variable) falls back to
`'black'` and appends an `ENV_WARNINGS` entry; the `Bool` is whether the
warning was emitted. -/
def resolveBackgroundColor (env : Option String) : String × Bool :=
  if env = some "black" ∨ env = some "white" then (env.getD "black", false)
  else ("black", true)

/-- `fmt_ref` (lines 170-187): format the `__ref__` value according to the
reference type.  The float formatting itself is external (`FloatFmt`). -/
def fmt_ref (ff : FloatFmt V) (ref : V) (ref_type : RefType) (no_symb : Bool) : String :=
  match ref_type with
  | RefType.distance => if no_symb then ff.f3 ref else ff.f2 ref ++ " km"
  | RefType.percentage => if no_symb then ff.f3 ref else ff.f1 (ff.scale100 ref) ++ " %"
  | RefType.index => toString (ff.toInt ref)

/-- The `__ref__`-type dispatch of `main` (lines 849-855), keyed on the last
executed stage. -/
def refType (last : Option Stage) : RefType :=
  if last = some Stage.near ∨ last = some Stage.closest then RefType.distance
  else if last = some Stage.trep ∨ last = some Stage.fuzzy then RefType.percentage
  else RefType.index

/-- UTF-8 encoding of one character (what Python-2 `.encode('utf8')` does
per code point). -/
def utf8Encode (c : Char) : List Nat :=
  let n := c.toNat
  if n < 0x80 then [n]
  else if n < 0x800 then [0xC0 + n / 0x40, 0x80 + n % 0x40]
  else if n < 0x10000 then
    [0xE0 + n / 0x1000, 0x80 + n / 0x40 % 0x40, 0x80 + n % 0x40]
  else
    [0xF0 + n / 0x40000, 0x80 + n / 0x1000 % 0x40, 0x80 + n / 0x40 % 0x40, 0x80 + n % 0x40]

/-- `.encode('utf8')` on a decoded string. -/
def encodeStr (s : List Char) : List Nat := (s.map utf8Encode).flatten

/-- Left-justified padding to `lim` characters: `'%-<lim>s' % s`. -/
def padTo (lim : Nat) (s : List Char) : List Char :=
  s ++ List.replicate (lim - s.length) ' '

/-- A UTF-8 byte-stream validator: `true` iff the bytes are a concatenation
of well-formed single- or multi-byte character encodings (a `false` result
in particular witnesses a multi-byte character split mid-character). -/
def validUtf8 : List Nat → Bool
  | [] => true
  | b :: rest =>
    if b < 0x80 then validUtf8 rest
    else if 0xC2 ≤ b ∧ b ≤ 0xDF then
      match rest with
      | b2 :: r => (0x80 ≤ b2 && b2 < 0xC0) && validUtf8 r
      | [] => false
    else if 0xE0 ≤ b ∧ b ≤ 0xEF then
      match rest with
      | b2 :: b3 :: r => (0x80 ≤ b2 && b2 < 0xC0) && ((0x80 ≤ b3 && b3 < 0xC0) && validUtf8 r)
      | _ => false
    else if 0xF0 ≤ b ∧ b ≤ 0xF4 then
      match rest with
      | b2 :: b3 :: b4 :: r =>
        (0x80 ≤ b2 && b2 < 0xC0) &&
          ((0x80 ≤ b3 && b3 < 0xC0) && ((0x80 ≤ b4 && b4 < 0xC0) && validUtf8 r))
      | _ => false
    else false

/-- The content computation of `fixed_width` (lines 287-308): decode, take
`truncate` characters (`None` defaults to `1000`), pad to `lim`, re-encode,
and when characters were dropped replace the last two *bytes* of the encoded
string with `'… '` (that is Python-2 `es[:-2] + '… '` on a byte string). -/
def fixed_width_core (s : List Char) (lim : Nat) (truncate : Option Nat) : List Nat :=
  let t := truncate.getD 1000
  let es := encodeStr (padTo lim (s.take t))
  if s.length > t then es.take (es.length - 2) ++ encodeStr ['…', ' '] else es

/-- `fixed_width` proper: the content wrapped by the external `colored`
(termcolor) escape-code decoration. -/
def fixed_width (colored : List Nat → ColorTriple → List Nat) (s : List Char)
    (col : ColorTriple) (lim : Nat) (truncate : Option Nat) : List Nat :=
  colored (fixed_width_core s lim truncate) col

/-- `MIN_CHAR_COL`. -/
def MIN_CHAR_COL : Nat := 20

/-- `MAX_CHAR_COL`. -/
def MAX_CHAR_COL : Nat := 40

/-- The per-result column width of `display` (lines 209-211):
`min(MAX_CHAR_COL, max(MIN_CHAR_COL, term_width / (n + 1)))`. -/
def displayLim (termW n : Nat) : Nat :=
  min MAX_CHAR_COL (max MIN_CHAR_COL (termW / (n + 1)))

/-- The truncation selection of `display` (lines 213-217): disabled when
there is exactly one result. -/
def displayTruncate (n lim : Nat) : Option Nat :=
  if n = 1 then none else some lim

/-- Python `str.split(sep)` on decoded characters: splits at *every*
occurrence of `sep`, keeping empty parts (so the result has one part more
than the number of separators). -/
def pySplit (sep : Char) : List Char → List (List Char)
  | [] => [[]]
  | c :: r =>
    if c = sep then [] :: pySplit sep r
    else
      match pySplit sep r with
      | h :: t => (c :: h) :: t
      | [] => [[c]]

/-- Python `str.strip(chars)`: drop characters belonging to `cs` from both
ends. -/
def stripChars (cs : List Char) (s : List Char) : List Char :=
  ((s.dropWhile (cs.contains ·)).reverse.dropWhile (cs.contains ·)).reverse

/-- The float parse attempted by `scan_coords`:
`tuple(float(l) for l in u_input.strip('()').split(','))`, `none` when any
part makes `float` raise `ValueError`. -/
def parsedFloats (pf : List Char → Option V) (u : String) : Option (List V) :=
  (pySplit ',' (stripChars ['(', ')'] u.data)).mapM pf

/-- `scan_coords` (lines 311-341): interpret the token as a geocode or as a
dataset key, with the three failure modes of the source. -/
def scan_coords (pf : List Char → Option V) (u : String) (g : Backend V) :
    Except Err (V × V) :=
  match parsedFloats pf u with
  | some coords =>
    match coords with
    | [x, y] => Except.ok (x, y)
    | _ => Except.error (Err.geocodeFormat u)
  | none =>
    if !(g.contains u) then Except.error (Err.unknownKey u)
    else
      match g.getLocation u with
      | none => Except.error (Err.geocodeUnknown u)
      | some c => Except.ok c

/-- `ex_keys` (line 761): keep only the keys of the intermediate results. -/
def exKeys (l : List (V × Key)) : List Key := l.map Prod.snd

/-- Python `enumerate` over a key list, with indices as Python numbers. -/
def pyEnumerate (ofNat : Nat → V) (ks : List Key) : List (V × Key) :=
  ks.enum.map (fun p => (ofNat p.1, p.2))

/-- Lexicographic code-point comparison of decoded strings, as Python
compares `str` values. -/
def charListLt : List Char → List Char → Bool
  | [], [] => false
  | [], _ :: _ => true
  | _ :: _, [] => false
  | a :: as, b :: bs => if a < b then true else if b < a then false else charListLt as bs

/-- Strict lexicographic comparison of `(relevance, key)` tuples, as Python
compares tuples in `sorted`. -/
def pairLtb [LinearOrder V] (a b : V × Key) : Bool :=
  decide (a.1 < b.1) || (decide (a.1 = b.1) && charListLt a.2.data b.2.data)

/-- Stable insertion used by `pySorted`. -/
def insertPair [LinearOrder V] (x : V × Key) : List (V × Key) → List (V × Key)
  | [] => [x]
  | h :: t => if pairLtb x h then x :: h :: t else h :: insertPair x t

/-- Python `sorted` on `(relevance, key)` tuples (insertion sort; stable,
ascending in the lexicographic tuple order). -/
def pySorted [LinearOrder V] (l : List (V × Key)) : List (V × Key) :=
  l.foldr insertPair []

/-- One trace record per stage execution: which stage ran, the candidate
keys it was given as `from_keys`, and the state it produced. -/
structure TraceEntry (V : Type) where
  stage : Stage
  fromKeys : List Key
  out : List (V × Key)
  deriving DecidableEq

/-- The value threaded through the stage chain of `main`: the current
intermediate result (or the fatal diagnostic that ended the run), the
execution trace, and the `last` variable of the source. -/
structure PipAcc (V : Type) where
  cur : Except Err (List (V × Key))
  trace : List (TraceEntry V)
  last : Option Stage

/-- One `if args[...] is not None:` block of `main` (lines 768-815): skip
the stage when its flag is off or a previous diagnostic already ended the
run; otherwise call the backend on `ex_keys` of the current results. -/
def stageStep [LinearOrder V] (E : Env V) (acc : PipAcc V) (s : Stage) : PipAcc V :=
  match acc.cur with
  | Except.error _ => acc
  | Except.ok st =>
    match s with
    | Stage.trep =>
      match E.a.trep with
      | none => acc
      | some q =>
        let fk := exKeys st
        let out := E.g.trepGet q E.a.trepFormat fk
        ⟨Except.ok out, acc.trace ++ [⟨Stage.trep, fk, out⟩], some Stage.trep⟩
    | Stage.exact =>
      match E.a.exact with
      | none => acc
      | some q =>
        let fk := exKeys st
        let out := pyEnumerate E.g.ofNat (E.g.getKeysWhere E.a.exactProperty q E.a.reverse fk)
        ⟨Except.ok out, acc.trace ++ [⟨Stage.exact, fk, out⟩], some Stage.exact⟩
    | Stage.near =>
      match E.a.near with
      | none => acc
      | some q =>
        match scan_coords E.pf q E.g with
        | Except.error e => ⟨Except.error e, acc.trace, acc.last⟩
        | Except.ok c =>
          let fk := exKeys st
          let out := pySorted (E.g.findNearPoint c E.a.nearLimit E.a.withGrid fk)
          ⟨Except.ok out, acc.trace ++ [⟨Stage.near, fk, out⟩], some Stage.near⟩
    | Stage.closest =>
      match E.a.closest with
      | none => acc
      | some q =>
        match scan_coords E.pf q E.g with
        | Except.error e => ⟨Except.error e, acc.trace, acc.last⟩
        | Except.ok c =>
          let fk := exKeys st
          let out := E.g.findClosestFromPoint c E.a.closestLimit E.a.withGrid fk
          ⟨Except.ok out, acc.trace ++ [⟨Stage.closest, fk, out⟩], some Stage.closest⟩
    | Stage.fuzzy =>
      match E.a.fuzzy with
      | none => acc
      | some q =>
        let fk := exKeys st
        let out := E.g.fuzzyGet q E.a.fuzzyProperty E.a.fuzzyLimit fk
        ⟨Except.ok out, acc.trace ++ [⟨Stage.fuzzy, fk, out⟩], some Stage.fuzzy⟩

/-- The filter pipeline of `main` (lines 747-815): starting from the
enumeration of the starting keys (all keys, the arguments, or stdin), run
the five optional stages in their fixed source order. -/
def runPipeline [LinearOrder V] (E : Env V) (start : List Key) : PipAcc V :=
  stageOrder.foldl (stageStep E) ⟨Except.ok (pyEnumerate E.g.ofNat start), [], none⟩

/-- The eager validation of `main` (lines 702-732), in source order:
capability checks for trep and geocoding, property checks for exact and
fuzzy, then the `show`/`omit` field check. -/
def validate (g : Backend V) (a : Args V) : Option Err :=
  if a.trep.isSome && !g.hasTrepSupport then some Err.trepSupport
  else if (a.near.isSome || a.closest.isSome) && !g.hasGeoSupport then
    some (Err.geoSupport a.base)
  else if a.exact.isSome && !(g.fields.contains a.exactProperty) then
    some (Err.property a.exactProperty a.base g.fields)
  else if a.fuzzy.isSome && !(g.fields.contains a.fuzzyProperty) then
    some (Err.property a.fuzzyProperty a.base g.fields)
  else
    match (a.show_ ++ a.omit_).find? (fun f => !(("__ref__" :: g.fields).contains f)) with
    | some f => some (Err.field f a.base ("__ref__" :: g.fields))
    | none => none

/-- `res = res[:limit]` (lines 835-836), disabled when `limit` is `None`. -/
def applyLimit (lim : Option Nat) (l : List α) : List α :=
  match lim with
  | none => l
  | some n => l.take n

/-- The final data handed to the renderers: the surviving rows, the keys
reported by the defensive unknown-key warnings, and the resolved
reference type. -/
structure Output (V : Type) where
  rows : List (V × Key)
  warnedKeys : List Key
  ref : RefType
  deriving DecidableEq

/-- `main` up to the renderer call: eager validation, the pipeline, the
defensive unknown-key warning sweep (lines 826-831), the limit cut and the
reference-type resolution.  An `Except.error` is an `exit(1)` with the
carried diagnostic. -/
def mainCheck [LinearOrder V] (E : Env V) (start : List Key) : Except Err (Output V) :=
  match validate E.g E.a with
  | some e => Except.error e
  | none =>
    let P := runPipeline E start
    match P.cur with
    | Except.error e => Except.error e
    | Except.ok res =>
      let warned := (res.filter (fun r => !(E.g.contains r.2))).map Prod.snd
      let kept := res.filter (fun r => E.g.contains r.2)
      Except.ok ⟨applyLimit E.a.limit kept, warned, refType P.last⟩

/-- Default field list of `display_quiet` (lines 255-261): `__ref__` plus
the dataset fields, eliding any field whose `@raw` counterpart is also in
that list. -/
def quietDefaultShow (g : Backend V) : List String :=
  let t := "__ref__" :: g.fields
  t.filter (fun f => !(t.contains (f ++ "@raw")))

/-- The displayed headers of `display_quiet`: the default (or explicit)
field list minus the omitted fields. -/
def quietShown (g : Backend V) (omit_ show_ : List String) : List String :=
  (if show_.isEmpty then quietDefaultShow g else show_).filter (fun f => !(omit_.contains f))

/-- One data cell of `display_quiet` (lines 271-282). -/
def quietCell (g : Backend V) (ff : FloatFmt V) (ref_type : RefType)
    (hk : V × Key) (f : String) : String :=
  if f = "__ref__" then fmt_ref ff hk.1 ref_type true
  else
    let v := g.get hk.2 f
    if f.startsWith "__" && v.isSeq then String.intercalate "/" v.elems
    else pyStr v

/-- `display_quiet` (lines 248-284), as the list of lines written to
stdout: a `#`-prefixed header of `^`-joined field names, then one
`^`-joined line per result. -/
def display_quiet (g : Backend V) (list_of_things : List (V × Key))
    (omit_ show_ : List String) (ff : FloatFmt V) (ref_type : RefType) : List String :=
  let swo := quietShown g omit_ show_
  ("#" ++ String.intercalate "^" swo)
    :: list_of_things.map (fun hk => String.intercalate "^" (swo.map (quietCell g ff ref_type hk)))

/-- `display` (lines 191-245), as the list of byte chunks written to
stdout.  The empty-result notice short-circuits before any column or color
computation; otherwise one header cell plus one cell per result is emitted
per shown field, colored by role, with the rotation advanced once per
field. -/
def display (colored : List Nat → ColorTriple → List Nat) (termW : Nat) (bg : String)
    (g : Backend V) (list_of_things : List (V × Key)) (omit_ show_ important : List String)
    (ff : FloatFmt V) (ref_type : RefType) : Except String (List (List Nat)) :=
  if list_of_things.isEmpty then
    Except.ok [encodeStr "\nNo elements to display.\n".data]
  else
    let show1 := if show_.isEmpty then "__ref__" :: g.fields else show_
    let swo := show1.filter (fun f => !(omit_.contains f))
    let n := list_of_things.length
    let lim := displayLim termW n
    let truncate := displayTruncate n lim
    match RotatingColors.init bg with
    | Except.error e => Except.error e
    | Except.ok c0 =>
      let step := fun (acc : RotatingColors × List (List Nat)) (f : String) =>
        let c := acc.1
        let col :=
          if important.contains f then RotatingColors.getEmph
          else if f = "__ref__" then RotatingColors.getHeader
          else if f.endsWith "@raw" then c.getRaw
          else if f.startsWith "__" then RotatingColors.getSpecial
          else c.get
        let c' := c.next
        let fieldChunk := encodeStr ['\n'] ++ fixed_width colored f.data col lim truncate
        let cells :=
          if f = "__ref__" then
            list_of_things.map
              (fun hk => fixed_width colored (fmt_ref ff hk.1 ref_type false).data col lim truncate)
          else
            list_of_things.map
              (fun hk => fixed_width colored (pyStr (g.get hk.2 f)).data col lim truncate)
        (c', acc.2 ++ (fieldChunk :: cells))
      Except.ok ((swo.foldl step (c0, [])).2 ++ [encodeStr ['\n']])

/-- The current candidate key set after a trace: the keys surviving the
most recent executed stage, or the starting keys when none executed yet. -/
def lastKeys (start : List Key) (tr : List (TraceEntry V)) : List Key :=
  match tr.getLast? with
  | none => start
  | some e => exKeys e.out

/-- Carry-forward check on a trace: every executed stage received as its
`from_keys` exactly the keys surviving the most recent earlier executed
stage (the starting keys for the first executed stage). -/
def chainOKb (prev : List Key) : List (TraceEntry V) → Bool
  | [] => true
  | e :: r => (e.fromKeys == prev) && chainOKb (exKeys e.out) r

/-- The invariant maintained by the stage chain: the trace is correctly
chained, the current candidate keys are the keys of the last executed
stage's output, and `last` is the stage of the last trace record. -/
def PipInv (start : List Key) (acc : PipAcc V) : Prop :=
  chainOKb start acc.trace = true ∧
  (∀ st, acc.cur = Except.ok st → exKeys st = lastKeys start acc.trace) ∧
  acc.last = acc.trace.getLast?.map TraceEntry.stage

/-- An invocation requesting an unsupported capability, an unknown
exact/fuzzy property, or an unknown show/omit field (the conditions guarded
by `main` lines 702-732). -/
def badInvocation (g : Backend V) (a : Args V) : Prop :=
  (a.trep.isSome = true ∧ g.hasTrepSupport = false) ∨
  ((a.near.isSome = true ∨ a.closest.isSome = true) ∧ g.hasGeoSupport = false) ∨
  (a.exact.isSome = true ∧ a.exactProperty ∉ g.fields) ∨
  (a.fuzzy.isSome = true ∧ a.fuzzyProperty ∉ g.fields) ∨
  (∃ f ∈ a.show_ ++ a.omit_, f ∉ "__ref__" :: g.fields)

/-- The diagnostic is accurate: it names a genuinely offending value of the
invocation and, for property/field errors, carries the valid
alternatives. -/
def diagOK (g : Backend V) (a : Args V) : Err → Prop
  | Err.trepSupport => a.trep.isSome = true ∧ g.hasTrepSupport = false
  | Err.geoSupport b =>
      (a.near.isSome = true ∨ a.closest.isSome = true) ∧ g.hasGeoSupport = false ∧ b = a.base
  | Err.property p b alts =>
      ((a.exact.isSome = true ∧ p = a.exactProperty) ∨
        (a.fuzzy.isSome = true ∧ p = a.fuzzyProperty)) ∧
      p ∉ g.fields ∧ b = a.base ∧ alts = g.fields
  | Err.field f b alts =>
      f ∈ a.show_ ++ a.omit_ ∧ f ∉ "__ref__" :: g.fields ∧ b = a.base ∧
      alts = "__ref__" :: g.fields
  | _ => False

/-- Spec-side (§4.6): the quiet-mode default displayed field set — the
reference pseudo-field plus the dataset fields, eliding every field whose
raw-counterpart name (`<field>@raw`) is present in the same display set. -/
def specQuietDefaultFields (g : Backend V) : List String :=
  let all := "__ref__" :: g.fields
  all.filter (fun f => !(all.contains (f ++ "@raw")))

/-- Spec-side (§4.6): serialization of one displayed value — the reference
value in machine form, list/sequence-valued meta-fields joined with the
secondary delimiter `/`, anything else stringified. -/
def specQuietCell (g : Backend V) (ff : FloatFmt V) (rt : RefType)
    (row : V × Key) (f : String) : String :=
  if f = "__ref__" then fmt_ref ff row.1 rt true
  else if f.startsWith "__" && (g.get row.2 f).isSeq then
    String.intercalate "/" (g.get row.2 f).elems
  else pyStr (g.get row.2 f)

/-- Spec-side (§4.6): a marker-prefixed header line of field names joined by
the fixed delimiter `^`, then one `^`-joined line per result. -/
def specQuietRender (g : Backend V) (rows : List (V × Key)) (omit_ : List String)
    (ff : FloatFmt V) (rt : RefType) : List String :=
  let shown := (specQuietDefaultFields g).filter (fun f => !(omit_.contains f))
  ("#" ++ String.intercalate "^" shown)
    :: rows.map (fun row => String.intercalate "^" (shown.map (specQuietCell g ff rt row)))

/-- Concrete `float()` model for witnesses: parses the two digit strings
used by them. -/
def wPf : List Char → Option Int :=
  fun s => if s = ['1'] then some 1 else if s = ['2'] then some 2 else none

/-- Concrete backend for witnesses built around one known key `A`. -/
def wBackend : Backend Int where
  fields := ["name"]
  contains := fun k => k == "A"
  getLocation := fun _ => some (0, 0)
  get := fun _ _ => PyValue.atom "x"
  hasTrepSupport := true
  hasGeoSupport := true
  ofNat := Int.ofNat
  trepGet := fun _ _ _ => [(7, "A"), (9, "ghost")]
  getKeysWhere := fun _ _ _ fk => fk
  findNearPoint := fun _ _ _ fk => fk.map (fun k => (0, k))
  findClosestFromPoint := fun _ _ _ fk => fk.map (fun k => (0, k))
  fuzzyGet := fun _ _ _ fk => fk.map (fun k => (0, k))

/-- Baseline witness arguments: no stage active, nothing shown/omitted. -/
def wArgsNone : Args Int where
  base := "ori_por"
  trep := none
  trepFormat := "S"
  exact := none
  exactProperty := "__key__"
  reverse := false
  near := none
  nearLimit := 50
  closest := none
  closestLimit := 10
  fuzzy := none
  fuzzyProperty := "name"
  fuzzyLimit := 0
  withGrid := true
  show_ := []
  omit_ := []
  limit := none

/-- Witness arguments activating ExactMatch then NearRadius. -/
def wArgsExactNear : Args Int :=
  { wArgsNone with exact := some "x", exactProperty := "name", near := some "1,2" }

/-- Witness arguments activating only the text-search stage. -/
def wArgsTrep : Args Int :=
  { wArgsNone with trep := some "paris" }

/-- Witness arguments with an unknown display field. -/
def wArgsBadField : Args Int :=
  { wArgsNone with show_ := ["bogus"] }

/-- Witness environment running ExactMatch then NearRadius. -/
def wEnvExactNear : Env Int := ⟨wBackend, wArgsExactNear, wPf⟩

/-- Witness environment running only the text-search stage. -/
def wEnvTrep : Env Int := ⟨wBackend, wArgsTrep, wPf⟩

/-- Witness environment with an unknown display field. -/
def wEnvBadField : Env Int := ⟨wBackend, wArgsBadField, wPf⟩

/-- Concrete backend for the `scan_coords` witness: key `K` has a location,
key `L` has none. -/
def wBackendGeo : Backend Int :=
  { wBackend with
    contains := fun k => k == "K" || k == "L"
    getLocation := fun k => if k == "K" then some (5, 6) else none }

lemma exKeys_pyEnumerate (f : Nat → V) (ks : List Key) : exKeys (pyEnumerate f ks) = ks := by
  unfold exKeys pyEnumerate
  rw [List.map_map]
  have h : (Prod.snd ∘ fun p : Nat × Key => (f p.1, p.2)) = Prod.snd := by
    funext p
    rfl
  rw [h, List.enum_map_snd]

lemma lastKeys_nil (start : List Key) : lastKeys start ([] : List (TraceEntry V)) = start := rfl

lemma lastKeys_cons (start : List Key) (a : TraceEntry V) (tr : List (TraceEntry V)) :
    lastKeys start (a :: tr) = lastKeys (exKeys a.out) tr := by
  cases tr with
  | nil => rfl
  | cons b t =>
    cases hgl : (b :: t).getLast? with
    | none => exact absurd (List.getLast?_eq_none_iff.mp hgl) (by simp)
    | some e => simp [lastKeys, List.getLast?_cons_cons, hgl]

lemma lastKeys_concat (start : List Key) (tr : List (TraceEntry V)) (e : TraceEntry V) :
    lastKeys start (tr ++ [e]) = exKeys e.out := by
  simp [lastKeys, List.getLast?_concat]

lemma chainOKb_concat (prev : List Key) (tr : List (TraceEntry V)) (e : TraceEntry V) :
    chainOKb prev (tr ++ [e]) = (chainOKb prev tr && (e.fromKeys == lastKeys prev tr)) := by
  induction tr generalizing prev with
  | nil => simp [chainOKb, lastKeys]
  | cons a t ih => simp [chainOKb, ih, lastKeys_cons, Bool.and_assoc]

lemma pipInv_append {start : List Key} {tr : List (TraceEntry V)} {la : Option Stage}
    {st out : List (V × Key)} (s : Stage)
    (h : PipInv start ⟨Except.ok st, tr, la⟩) :
    PipInv start ⟨Except.ok out, tr ++ [⟨s, exKeys st, out⟩], some s⟩ := by
  obtain ⟨h1, h2, h3⟩ := h
  have hst : exKeys st = lastKeys start tr := h2 st rfl
  unfold PipInv
  refine ⟨?_, ?_, ?_⟩
  · show chainOKb start (tr ++ [TraceEntry.mk s (exKeys st) out]) = true
    rw [chainOKb_concat, h1]
    simp [hst]
  · intro st' h'
    cases h'
    show exKeys out = lastKeys start (tr ++ [TraceEntry.mk s (exKeys st) out])
    rw [lastKeys_concat]
  · show some s = ((tr ++ [TraceEntry.mk s (exKeys st) out]).getLast?).map TraceEntry.stage
    rw [List.getLast?_concat]
    rfl

lemma pipInv_error {start : List Key} {tr : List (TraceEntry V)} {la la' : Option Stage}
    {st : List (V × Key)} {e : Err} (hl : la' = la)
    (h : PipInv start ⟨Except.ok st, tr, la⟩) :
    PipInv start ⟨Except.error e, tr, la'⟩ := by
  obtain ⟨h1, h2, h3⟩ := h
  unfold PipInv
  refine ⟨h1, ?_, hl ▸ h3⟩
  intro st' h'
  exact Except.noConfusion h'

lemma stageStep_err [LinearOrder V] (E : Env V) (e : Err) (tr : List (TraceEntry V))
    (la : Option Stage) (s : Stage) :
    stageStep E ⟨Except.error e, tr, la⟩ s = ⟨Except.error e, tr, la⟩ := rfl

lemma stageStep_trep_none [LinearOrder V] (E : Env V) (st : List (V × Key))
    (tr : List (TraceEntry V)) (la : Option Stage) (hq : E.a.trep = none) :
    stageStep E ⟨Except.ok st, tr, la⟩ Stage.trep = ⟨Except.ok st, tr, la⟩ := by
  simp [stageStep, hq]

lemma stageStep_trep_some [LinearOrder V] (E : Env V) (st : List (V × Key))
    (tr : List (TraceEntry V)) (la : Option Stage) (q : String) (hq : E.a.trep = some q) :
    stageStep E ⟨Except.ok st, tr, la⟩ Stage.trep =
      ⟨Except.ok (E.g.trepGet q E.a.trepFormat (exKeys st)),
       tr ++ [⟨Stage.trep, exKeys st, E.g.trepGet q E.a.trepFormat (exKeys st)⟩],
       some Stage.trep⟩ := by
  simp [stageStep, hq]

lemma stageStep_exact_none [LinearOrder V] (E : Env V) (st : List (V × Key))
    (tr : List (TraceEntry V)) (la : Option Stage) (hq : E.a.exact = none) :
    stageStep E ⟨Except.ok st, tr, la⟩ Stage.exact = ⟨Except.ok st, tr, la⟩ := by
  simp [stageStep, hq]

lemma stageStep_exact_some [LinearOrder V] (E : Env V) (st : List (V × Key))
    (tr : List (TraceEntry V)) (la : Option Stage) (q : String) (hq : E.a.exact = some q) :
    stageStep E ⟨Except.ok st, tr, la⟩ Stage.exact =
      ⟨Except.ok (pyEnumerate E.g.ofNat (E.g.getKeysWhere E.a.exactProperty q E.a.reverse (exKeys st))),
       tr ++ [⟨Stage.exact, exKeys st,
         pyEnumerate E.g.ofNat (E.g.getKeysWhere E.a.exactProperty q E.a.reverse (exKeys st))⟩],
       some Stage.exact⟩ := by
  simp [stageStep, hq]

lemma stageStep_near_none [LinearOrder V] (E : Env V) (st : List (V × Key))
    (tr : List (TraceEntry V)) (la : Option Stage) (hq : E.a.near = none) :
    stageStep E ⟨Except.ok st, tr, la⟩ Stage.near = ⟨Except.ok st, tr, la⟩ := by
  simp [stageStep, hq]

lemma stageStep_near_scanErr [LinearOrder V] (E : Env V) (st : List (V × Key))
    (tr : List (TraceEntry V)) (la : Option Stage) (q : String) (e : Err)
    (hq : E.a.near = some q) (hs : scan_coords E.pf q E.g = Except.error e) :
    stageStep E ⟨Except.ok st, tr, la⟩ Stage.near = ⟨Except.error e, tr, la⟩ := by
  simp [stageStep, hq, hs]

lemma stageStep_near_some [LinearOrder V] (E : Env V) (st : List (V × Key))
    (tr : List (TraceEntry V)) (la : Option Stage) (q : String) (c : V × V)
    (hq : E.a.near = some q) (hs : scan_coords E.pf q E.g = Except.ok c) :
    stageStep E ⟨Except.ok st, tr, la⟩ Stage.near =
      ⟨Except.ok (pySorted (E.g.findNearPoint c E.a.nearLimit E.a.withGrid (exKeys st))),
       tr ++ [⟨Stage.near, exKeys st,
         pySorted (E.g.findNearPoint c E.a.nearLimit E.a.withGrid (exKeys st))⟩],
       some Stage.near⟩ := by
  simp [stageStep, hq, hs]

lemma stageStep_closest_none [LinearOrder V] (E : Env V) (st : List (V × Key))
    (tr : List (TraceEntry V)) (la : Option Stage) (hq : E.a.closest = none) :
    stageStep E ⟨Except.ok st, tr, la⟩ Stage.closest = ⟨Except.ok st, tr, la⟩ := by
  simp [stageStep, hq]

lemma stageStep_closest_scanErr [LinearOrder V] (E : Env V) (st : List (V × Key))
    (tr : List (TraceEntry V)) (la : Option Stage) (q : String) (e : Err)
    (hq : E.a.closest = some q) (hs : scan_coords E.pf q E.g = Except.error e) :
    stageStep E ⟨Except.ok st, tr, la⟩ Stage.closest = ⟨Except.error e, tr, la⟩ := by
  simp [stageStep, hq, hs]

lemma stageStep_closest_some [LinearOrder V] (E : Env V) (st : List (V × Key))
    (tr : List (TraceEntry V)) (la : Option Stage) (q : String) (c : V × V)
    (hq : E.a.closest = some q) (hs : scan_coords E.pf q E.g = Except.ok c) :
    stageStep E ⟨Except.ok st, tr, la⟩ Stage.closest =
      ⟨Except.ok (E.g.findClosestFromPoint c E.a.closestLimit E.a.withGrid (exKeys st)),
       tr ++ [⟨Stage.closest, exKeys st,
         E.g.findClosestFromPoint c E.a.closestLimit E.a.withGrid (exKeys st)⟩],
       some Stage.closest⟩ := by
  simp [stageStep, hq, hs]

lemma stageStep_fuzzy_none [LinearOrder V] (E : Env V) (st : List (V × Key))
    (tr : List (TraceEntry V)) (la : Option Stage) (hq : E.a.fuzzy = none) :
    stageStep E ⟨Except.ok st, tr, la⟩ Stage.fuzzy = ⟨Except.ok st, tr, la⟩ := by
  simp [stageStep, hq]

lemma stageStep_fuzzy_some [LinearOrder V] (E : Env V) (st : List (V × Key))
    (tr : List (TraceEntry V)) (la : Option Stage) (q : String) (hq : E.a.fuzzy = some q) :
    stageStep E ⟨Except.ok st, tr, la⟩ Stage.fuzzy =
      ⟨Except.ok (E.g.fuzzyGet q E.a.fuzzyProperty E.a.fuzzyLimit (exKeys st)),
       tr ++ [⟨Stage.fuzzy, exKeys st, E.g.fuzzyGet q E.a.fuzzyProperty E.a.fuzzyLimit (exKeys st)⟩],
       some Stage.fuzzy⟩ := by
  simp [stageStep, hq]

lemma stageStep_inv [LinearOrder V] (E : Env V) {start : List Key} {acc : PipAcc V} (s : Stage)
    (h : PipInv start acc) : PipInv start (stageStep E acc s) := by
  obtain ⟨cur, tr, la⟩ := acc
  cases cur with
  | error e => exact h
  | ok st =>
    cases s with
    | trep =>
      cases hq : E.a.trep with
      | none => rw [stageStep_trep_none E st tr la hq]; exact h
      | some q => rw [stageStep_trep_some E st tr la q hq]; exact pipInv_append Stage.trep h
    | exact =>
      cases hq : E.a.exact with
      | none => rw [stageStep_exact_none E st tr la hq]; exact h
      | some q => rw [stageStep_exact_some E st tr la q hq]; exact pipInv_append Stage.exact h
    | near =>
      cases hq : E.a.near with
      | none => rw [stageStep_near_none E st tr la hq]; exact h
      | some q =>
        cases hs : scan_coords E.pf q E.g with
        | error e => rw [stageStep_near_scanErr E st tr la q e hq hs]; exact pipInv_error rfl h
        | ok c => rw [stageStep_near_some E st tr la q c hq hs]; exact pipInv_append Stage.near h
    | closest =>
      cases hq : E.a.closest with
      | none => rw [stageStep_closest_none E st tr la hq]; exact h
      | some q =>
        cases hs : scan_coords E.pf q E.g with
        | error e => rw [stageStep_closest_scanErr E st tr la q e hq hs]; exact pipInv_error rfl h
        | ok c => rw [stageStep_closest_some E st tr la q c hq hs]; exact pipInv_append Stage.closest h
    | fuzzy =>
      cases hq : E.a.fuzzy with
      | none => rw [stageStep_fuzzy_none E st tr la hq]; exact h
      | some q => rw [stageStep_fuzzy_some E st tr la q hq]; exact pipInv_append Stage.fuzzy h

lemma foldl_stageStep_inv [LinearOrder V] (E : Env V) {start : List Key} :
    ∀ (L : List Stage) (acc : PipAcc V), PipInv start acc →
      PipInv start (L.foldl (stageStep E) acc) := by
  intro L
  induction L with
  | nil => intro acc h; exact h
  | cons s t ih => intro acc h; exact ih _ (stageStep_inv E s h)

lemma runPipeline_inv [LinearOrder V] (E : Env V) (start : List Key) :
    PipInv start (runPipeline E start) := by
  have h0 : PipInv start ⟨Except.ok (pyEnumerate E.g.ofNat start), [], none⟩ := by
    unfold PipInv
    refine ⟨rfl, ?_, rfl⟩
    intro st h
    cases h
    rw [exKeys_pyEnumerate]
    rfl
  exact foldl_stageStep_inv E stageOrder _ h0

lemma stageStep_trace [LinearOrder V] (E : Env V) (acc : PipAcc V) (s : Stage) :
    (stageStep E acc s).trace = acc.trace ∨
    ∃ fk out, (stageStep E acc s).trace = acc.trace ++ [⟨s, fk, out⟩] := by
  obtain ⟨cur, tr, la⟩ := acc
  cases cur with
  | error e => left; rfl
  | ok st =>
    cases s with
    | trep =>
      cases hq : E.a.trep with
      | none => left; rw [stageStep_trep_none E st tr la hq]
      | some q => right; exact ⟨_, _, by rw [stageStep_trep_some E st tr la q hq]⟩
    | exact =>
      cases hq : E.a.exact with
      | none => left; rw [stageStep_exact_none E st tr la hq]
      | some q => right; exact ⟨_, _, by rw [stageStep_exact_some E st tr la q hq]⟩
    | near =>
      cases hq : E.a.near with
      | none => left; rw [stageStep_near_none E st tr la hq]
      | some q =>
        cases hs : scan_coords E.pf q E.g with
        | error e => left; rw [stageStep_near_scanErr E st tr la q e hq hs]
        | ok c => right; exact ⟨_, _, by rw [stageStep_near_some E st tr la q c hq hs]⟩
    | closest =>
      cases hq : E.a.closest with
      | none => left; rw [stageStep_closest_none E st tr la hq]
      | some q =>
        cases hs : scan_coords E.pf q E.g with
        | error e => left; rw [stageStep_closest_scanErr E st tr la q e hq hs]
        | ok c => right; exact ⟨_, _, by rw [stageStep_closest_some E st tr la q c hq hs]⟩
    | fuzzy =>
      cases hq : E.a.fuzzy with
      | none => left; rw [stageStep_fuzzy_none E st tr la hq]
      | some q => right; exact ⟨_, _, by rw [stageStep_fuzzy_some E st tr la q hq]⟩

lemma foldl_trace_sublist [LinearOrder V] (E : Env V) :
    ∀ (L : List Stage) (acc : PipAcc V),
      ∃ t, (L.foldl (stageStep E) acc).trace = acc.trace ++ t ∧
        List.Sublist (t.map TraceEntry.stage) L := by
  intro L
  induction L with
  | nil => intro acc; exact ⟨[], by simp, by simp⟩
  | cons s r ih =>
    intro acc
    obtain ⟨u, hu, hsub⟩ := ih (stageStep E acc s)
    rcases stageStep_trace E acc s with h | ⟨fk, out, h⟩
    · refine ⟨u, ?_, hsub.cons s⟩
      rw [List.foldl_cons, hu, h]
    · refine ⟨⟨s, fk, out⟩ :: u, ?_, ?_⟩
      · rw [List.foldl_cons, hu, h, List.append_assoc]
        rfl
      · simpa using hsub.cons₂ s

/-- C1: the filter stages execute in the fixed order trep (TextSearch),
ExactMatch, NearRadius, ClosestN, FuzzyMatch, each optional; every executed
stage receives as its candidate key set exactly the keys surviving the most
recent earlier executed stage (the starting keys for the first one), and
never a candidate set of a later-ordered stage; in particular with
ExactMatch and NearRadius both active, NearRadius's candidate set is
exactly the ExactMatch survivors. -/
theorem C1_stage_order_and_candidate_chaining [LinearOrder V] (E : Env V) (start : List Key) :
    chainOKb start (runPipeline E start).trace = true ∧
    List.Sublist ((runPipeline E start).trace.map TraceEntry.stage) stageOrder ∧
    (∀ qe qn c, E.a.exact = some qe → E.a.near = some qn →
      scan_coords E.pf qn E.g = Except.ok c →
      ∃ pre suf eE eN, (runPipeline E start).trace = pre ++ eE :: eN :: suf ∧
        eE.stage = Stage.exact ∧ eN.stage = Stage.near ∧
        eN.fromKeys = exKeys eE.out) := by
  refine ⟨(runPipeline_inv E start).1, ?_, ?_⟩
  · obtain ⟨t, ht, hsub⟩ := foldl_trace_sublist E stageOrder
      (⟨Except.ok (pyEnumerate E.g.ofNat start), [], none⟩ : PipAcc V)
    unfold runPipeline
    rw [ht]
    simpa using hsub
  · intro qe qn c he hn hs
    obtain ⟨st1, T1, l1, ha1⟩ :
        ∃ st1 T1 l1,
          stageStep E (⟨Except.ok (pyEnumerate E.g.ofNat start), [], none⟩ : PipAcc V) Stage.trep
            = ⟨Except.ok st1, T1, l1⟩ := by
      cases hq : E.a.trep with
      | none => exact ⟨_, _, _, stageStep_trep_none E _ _ _ hq⟩
      | some q => exact ⟨_, _, _, stageStep_trep_some E _ _ _ q hq⟩
    set outE := pyEnumerate E.g.ofNat (E.g.getKeysWhere E.a.exactProperty qe E.a.reverse (exKeys st1)) with houtE
    set outN := pySorted (E.g.findNearPoint c E.a.nearLimit E.a.withGrid (exKeys outE)) with houtN
    have hcomp :
        stageStep E (stageStep E (stageStep E
            (⟨Except.ok (pyEnumerate E.g.ofNat start), [], none⟩ : PipAcc V) Stage.trep)
          Stage.exact) Stage.near =
        ⟨Except.ok outN,
         (T1 ++ [TraceEntry.mk Stage.exact (exKeys st1) outE]) ++
           [TraceEntry.mk Stage.near (exKeys outE) outN],
         some Stage.near⟩ := by
      rw [ha1, stageStep_exact_some E st1 T1 l1 qe he, houtE,
        stageStep_near_some E outE _ _ qn c hn hs, houtN]
    have hrun : runPipeline E start =
        [Stage.closest, Stage.fuzzy].foldl (stageStep E)
          (stageStep E (stageStep E (stageStep E
              (⟨Except.ok (pyEnumerate E.g.ofNat start), [], none⟩ : PipAcc V) Stage.trep)
            Stage.exact) Stage.near) := rfl
    obtain ⟨u, hu, _⟩ := foldl_trace_sublist E [Stage.closest, Stage.fuzzy]
      (stageStep E (stageStep E (stageStep E
          (⟨Except.ok (pyEnumerate E.g.ofNat start), [], none⟩ : PipAcc V) Stage.trep)
        Stage.exact) Stage.near)
    refine ⟨T1, u, TraceEntry.mk Stage.exact (exKeys st1) outE,
      TraceEntry.mk Stage.near (exKeys outE) outN, ?_, rfl, rfl, rfl⟩
    rw [hrun, hu, hcomp]
    simp

/-- Witness for C1 at a concrete invocation running ExactMatch then
NearRadius. -/
theorem C1_witness :
    ∃ pre suf eE eN, (runPipeline wEnvExactNear ["A"]).trace = pre ++ eE :: eN :: suf ∧
      eE.stage = Stage.exact ∧ eN.stage = Stage.near ∧ eN.fromKeys = exKeys eE.out :=
  (C1_stage_order_and_candidate_chaining wEnvExactNear ["A"]).2.2 "x" "1,2" (1, 2) rfl rfl rfl

/-- C2: the reference type used to format the relevance column is DISTANCE
iff the last executed stage was NearRadius or ClosestN, PERCENTAGE iff it
was trep (TextSearch) or FuzzyMatch, and INDEX when no stage executed or
the last one was ExactMatch. -/
theorem C2_reference_type_resolution [LinearOrder V] (E : Env V) (start : List Key) :
    (runPipeline E start).last = ((runPipeline E start).trace.getLast?).map TraceEntry.stage ∧
    (refType (runPipeline E start).last = RefType.distance ↔
      ((runPipeline E start).last = some Stage.near ∨
        (runPipeline E start).last = some Stage.closest)) ∧
    (refType (runPipeline E start).last = RefType.percentage ↔
      ((runPipeline E start).last = some Stage.trep ∨
        (runPipeline E start).last = some Stage.fuzzy)) ∧
    (refType (runPipeline E start).last = RefType.index ↔
      ((runPipeline E start).last = none ∨ (runPipeline E start).last = some Stage.exact)) ∧
    (∀ o, mainCheck E start = Except.ok o → o.ref = refType (runPipeline E start).last) := by
  have hmap : ∀ l : Option Stage,
      (refType l = RefType.distance ↔ (l = some Stage.near ∨ l = some Stage.closest)) ∧
      (refType l = RefType.percentage ↔ (l = some Stage.trep ∨ l = some Stage.fuzzy)) ∧
      (refType l = RefType.index ↔ (l = none ∨ l = some Stage.exact)) := by
    intro l
    rcases l with _ | s
    · exact ⟨by decide, by decide, by decide⟩
    · cases s <;> exact ⟨by decide, by decide, by decide⟩
  refine ⟨(runPipeline_inv E start).2.2, (hmap _).1, (hmap _).2.1, (hmap _).2.2, ?_⟩
  intro o ho
  unfold mainCheck at ho
  cases hv : validate E.g E.a with
  | some e => simp [hv] at ho
  | none =>
    simp only [hv] at ho
    cases hc : (runPipeline E start).cur with
    | error e => simp [hc] at ho
    | ok res =>
      simp only [hc] at ho
      cases ho
      rfl

/-- Witness for C2 at a concrete invocation whose last executed stage is
the text-search stage. -/
theorem C2_witness :
    Output.ref ⟨[((7 : Int), "A")], ["ghost"], RefType.percentage⟩ =
      refType (runPipeline wEnvTrep ["A"]).last :=
  (C2_reference_type_resolution wEnvTrep ["A"]).2.2.2.2
    ⟨[(7, "A")], ["ghost"], RefType.percentage⟩ rfl

lemma validate_some_diagOK {g : Backend V} {a : Args V} {e : Err}
    (h : validate g a = some e) : diagOK g a e := by
  unfold validate at h
  split_ifs at h with h1 h2 h3 h4
  · cases h
    simp only [Bool.and_eq_true, Bool.not_eq_true'] at h1
    exact h1
  · cases h
    simp only [Bool.and_eq_true, Bool.or_eq_true, Bool.not_eq_true'] at h2
    exact ⟨h2.1, h2.2, rfl⟩
  · cases h
    simp only [Bool.and_eq_true, Bool.not_eq_true'] at h3
    have h3' : a.exactProperty ∉ g.fields := by simpa using h3.2
    exact ⟨Or.inl ⟨h3.1, rfl⟩, h3', rfl, rfl⟩
  · cases h
    simp only [Bool.and_eq_true, Bool.not_eq_true'] at h4
    have h4' : a.fuzzyProperty ∉ g.fields := by simpa using h4.2
    exact ⟨Or.inr ⟨h4.1, rfl⟩, h4', rfl, rfl⟩
  · cases hf : (a.show_ ++ a.omit_).find? (fun f => !(("__ref__" :: g.fields).contains f)) with
    | none => rw [hf] at h; cases h
    | some f =>
      rw [hf] at h
      cases h
      have hmem := List.mem_of_find?_eq_some hf
      have hpred := List.find?_some hf
      exact ⟨hmem, by simpa using hpred, rfl, rfl⟩

lemma badInvocation_validate_isSome {g : Backend V} {a : Args V}
    (hb : badInvocation g a) : (validate g a).isSome := by
  unfold validate
  split_ifs with h1 h2 h3 h4
  · simp
  · simp
  · simp
  · simp
  · cases hf : (a.show_ ++ a.omit_).find? (fun f => !(("__ref__" :: g.fields).contains f)) with
    | some f => simp
    | none =>
      exfalso
      have hall := List.find?_eq_none.mp hf
      rcases hb with h | h | h | h | ⟨f, hfm, hfn⟩
      · exact h1 (by simp [h.1, h.2])
      · apply h2
        rcases h with ⟨hnc, hgeo⟩
        rcases hnc with hn | hc
        · simp [hn, hgeo]
        · simp [hc, hgeo]
      · exact h3 (by simp [h.1, h.2])
      · exact h4 (by simp [h.1, h.2])
      · exact hall f hfm (by simp [hfn])

/-- C5: a requested but unsupported capability, an unknown exact/fuzzy
property, or an unknown show/omit field makes the invocation fail before
any filter stage runs, with a diagnostic naming the offending value and
(for property/field errors) the valid alternatives. -/
theorem C5_fail_fast_validation [LinearOrder V] (E : Env V) (start : List Key)
    (hb : badInvocation E.g E.a) :
    ∃ e, mainCheck E start = Except.error e ∧ diagOK E.g E.a e := by
  obtain ⟨e, he⟩ := Option.isSome_iff_exists.mp (badInvocation_validate_isSome hb)
  refine ⟨e, ?_, validate_some_diagOK he⟩
  unfold mainCheck
  rw [he]

/-- Witness for C5 at a concrete invocation with an unknown display
field. -/
theorem C5_witness :
    badInvocation wBackend wArgsBadField ∧
    ∃ e, mainCheck wEnvBadField [] = Except.error e ∧ diagOK wBackend wArgsBadField e :=
  ⟨by unfold badInvocation; decide,
   C5_fail_fast_validation wEnvBadField [] (by unfold badInvocation; decide)⟩

/-- C6: the key/coordinate resolver returns the parsed pair on a two-float
parse, a geocode-format error on any other float-parse arity, and treats
unparsable tokens as dataset keys with the unknown-key and geocode-unknown
failure modes. -/
theorem C6_scan_coords_behaviour (pf : List Char → Option V) (u : String) (g : Backend V) :
    (∀ x y, parsedFloats pf u = some [x, y] → scan_coords pf u g = Except.ok (x, y)) ∧
    (∀ l, parsedFloats pf u = some l → l.length ≠ 2 →
      scan_coords pf u g = Except.error (Err.geocodeFormat u)) ∧
    (parsedFloats pf u = none → g.contains u = false →
      scan_coords pf u g = Except.error (Err.unknownKey u)) ∧
    (parsedFloats pf u = none → g.contains u = true → g.getLocation u = none →
      scan_coords pf u g = Except.error (Err.geocodeUnknown u)) ∧
    (∀ c, parsedFloats pf u = none → g.contains u = true → g.getLocation u = some c →
      scan_coords pf u g = Except.ok c) := by
  refine ⟨?_, ?_, ?_, ?_, ?_⟩
  · intro x y h
    simp [scan_coords, h]
  · intro l h hl
    rcases l with _ | ⟨x, _ | ⟨y, _ | ⟨z, t⟩⟩⟩
    · simp [scan_coords, h]
    · simp [scan_coords, h]
    · exact absurd rfl hl
    · simp [scan_coords, h]
  · intro h hc
    simp [scan_coords, h, hc]
  · intro h hc hl
    simp [scan_coords, h, hc, hl]
  · intro c h hc hl
    simp [scan_coords, h, hc, hl]

/-- Witness for C6 exercising all five behaviours on the concrete
backend and parser. -/
theorem C6_witness :
    scan_coords wPf "1,2" wBackendGeo = Except.ok ((1 : Int), 2) ∧
    scan_coords wPf "1,2,1" wBackendGeo = Except.error (Err.geocodeFormat "1,2,1") ∧
    scan_coords wPf "zzz" wBackendGeo = Except.error (Err.unknownKey "zzz") ∧
    scan_coords wPf "L" wBackendGeo = Except.error (Err.geocodeUnknown "L") ∧
    scan_coords wPf "K" wBackendGeo = Except.ok (5, 6) :=
  ⟨(C6_scan_coords_behaviour wPf "1,2" wBackendGeo).1 1 2 (by decide),
   (C6_scan_coords_behaviour wPf "1,2,1" wBackendGeo).2.1 [1, 2, 1] (by decide) (by decide),
   (C6_scan_coords_behaviour wPf "zzz" wBackendGeo).2.2.1 (by decide) (by decide),
   (C6_scan_coords_behaviour wPf "L" wBackendGeo).2.2.2.1 (by decide) (by decide) (by decide),
   (C6_scan_coords_behaviour wPf "K" wBackendGeo).2.2.2.2 (5, 6) (by decide) (by decide)
     (by decide)⟩

lemma applyLimit_subset {l : List α} {lim : Option Nat} {x : α}
    (h : x ∈ applyLimit lim l) : x ∈ l := by
  cases lim with
  | none => exact h
  | some n => exact List.mem_of_mem_take h

/-- C7: after the stages run, every row whose key is not resolvable in the
dataset is warned about and excluded from the final list, never silently
kept, and its presence never terminates the run (the result is still the
success case). -/
theorem C7_unknown_keys_warned_and_dropped [LinearOrder V] (E : Env V) (start : List Key)
    (res : List (V × Key)) (tr : List (TraceEntry V)) (l : Option Stage)
    (hv : validate E.g E.a = none)
    (hp : runPipeline E start = ⟨Except.ok res, tr, l⟩) :
    ∃ o, mainCheck E start = Except.ok o ∧
      o.warnedKeys = (res.filter (fun r => !(E.g.contains r.2))).map Prod.snd ∧
      o.rows = applyLimit E.a.limit (res.filter (fun r => E.g.contains r.2)) ∧
      (∀ r ∈ o.rows, E.g.contains r.2 = true) ∧
      (∀ r ∈ res, E.g.contains r.2 = false → r ∉ o.rows ∧ r.2 ∈ o.warnedKeys) := by
  refine ⟨⟨applyLimit E.a.limit (res.filter (fun r => E.g.contains r.2)),
    (res.filter (fun r => !(E.g.contains r.2))).map Prod.snd, refType l⟩, ?_, rfl, rfl, ?_, ?_⟩
  · unfold mainCheck
    rw [hv, hp]
  · intro r hr
    exact (List.mem_filter.mp (applyLimit_subset hr)).2
  · intro r hr hc
    constructor
    · intro hmem
      have hkept := (List.mem_filter.mp (applyLimit_subset hmem)).2
      rw [hc] at hkept
      cases hkept
    · exact List.mem_map.mpr ⟨r, List.mem_filter.mpr ⟨hr, by simp [hc]⟩, rfl⟩

/-- Witness for C7 at a concrete invocation whose pipeline output contains
a key unknown to the dataset. -/
theorem C7_witness :
    ∃ o, mainCheck wEnvTrep ["A"] = Except.ok o ∧
      o.warnedKeys =
        ([((7 : Int), "A"), (9, "ghost")].filter (fun r => !(wBackend.contains r.2))).map
          Prod.snd ∧
      o.rows =
        applyLimit wArgsTrep.limit
          ([((7 : Int), "A"), (9, "ghost")].filter (fun r => wBackend.contains r.2)) ∧
      (∀ r ∈ o.rows, wBackend.contains r.2 = true) ∧
      (∀ r ∈ [((7 : Int), "A"), (9, "ghost")], wBackend.contains r.2 = false →
        r ∉ o.rows ∧ r.2 ∈ o.warnedKeys) :=
  C7_unknown_keys_warned_and_dropped wEnvTrep ["A"] [(7, "A"), (9, "ghost")]
    [⟨Stage.trep, ["A"], [(7, "A"), (9, "ghost")]⟩] (some Stage.trep) rfl rfl

/-- C8: any background environment value other than the two accepted ones
proceeds with the dark (`black`) default after a warning and does not
crash; the `RotatingColors` constructor accepts exactly the two valid
values and raises an invalid-background error on any other. -/
theorem C8_background_color_handling :
    (∀ v : Option String, v ≠ some "black" → v ≠ some "white" →
      resolveBackgroundColor v = ("black", true)) ∧
    (∀ s : String, (∃ c, RotatingColors.init s = Except.ok c) ↔ (s = "black" ∨ s = "white")) ∧
    (∀ s : String, s ≠ "black" → s ≠ "white" →
      RotatingColors.init s =
        Except.error ("Accepted background color: \"black\" or \"white\", not \"" ++ s ++ "\".")) ∧
    (∀ v : Option String, ∃ c, RotatingColors.init (resolveBackgroundColor v).1 = Except.ok c) := by
  refine ⟨?_, ?_, ?_, ?_⟩
  · intro v h1 h2
    simp [resolveBackgroundColor, h1, h2]
  · intro s
    constructor
    · rintro ⟨c, hc⟩
      by_cases hb : s = "black"
      · exact Or.inl hb
      by_cases hw : s = "white"
      · exact Or.inr hw
      unfold RotatingColors.init at hc
      rw [if_neg hb, if_neg hw] at hc
      cases hc
    · rintro (rfl | rfl)
      · exact ⟨_, rfl⟩
      · exact ⟨_, rfl⟩
  · intro s hb hw
    unfold RotatingColors.init
    rw [if_neg hb, if_neg hw]
  · intro v
    by_cases hb : v = some "black"
    · subst hb
      exact ⟨_, rfl⟩
    by_cases hw : v = some "white"
    · subst hw
      exact ⟨_, rfl⟩
    rw [show resolveBackgroundColor v = ("black", true) from by
      simp [resolveBackgroundColor, hb, hw]]
    exact ⟨_, rfl⟩

/-- Witness for C8 at the concrete invalid background value `orange`. -/
theorem C8_witness :
    resolveBackgroundColor (some "orange") = ("black", true) ∧
    RotatingColors.init "orange" =
      Except.error
        ("Accepted background color: \"black\" or \"white\", not \"" ++ "orange" ++ "\".") ∧
    ∃ c, RotatingColors.init (resolveBackgroundColor (some "orange")).1 = Except.ok c :=
  ⟨C8_background_color_handling.1 (some "orange") (by decide) (by decide),
   C8_background_color_handling.2.2.1 "orange" (by decide) (by decide),
   C8_background_color_handling.2.2.2 (some "orange")⟩

/-- C9: in quiet mode with no explicit show list, the rendered lines are
exactly the spec's: default fields are `__ref__` plus the dataset fields
with `@raw`-duplicated fields elided, a `#`-prefixed `^`-joined header,
one `^`-joined line per result, and `/`-joined sequence values for
`__`-prefixed meta-fields. -/
theorem C9_quiet_rendering_refines_spec (g : Backend V) (rows : List (V × Key))
    (omit_ : List String) (ff : FloatFmt V) (rt : RefType) :
    display_quiet g rows omit_ [] ff rt = specQuietRender g rows omit_ ff rt := rfl

/-- C10: on an empty result list the quiet renderer still emits the
`#`-prefixed header line and no data lines, while the colorized renderer
emits only the no-elements notice. -/
theorem C10_empty_result_handling (g : Backend V) (omit_ show_ important : List String)
    (ff : FloatFmt V) (rt : RefType) (colored : List Nat → ColorTriple → List Nat)
    (termW : Nat) (bg : String) :
    display_quiet g [] omit_ show_ ff rt =
      ["#" ++ String.intercalate "^" (quietShown g omit_ show_)] ∧
    display colored termW bg g [] omit_ show_ important ff rt =
      Except.ok [encodeStr "\nNo elements to display.\n".data] :=
  ⟨rfl, rfl⟩

/-- C3 (code-bug evidence): `fixed_width` drops the last two *bytes* of the
encoded cell before appending the ellipsis, so truncating `aéxy` to three
characters yields a byte string that is not valid UTF-8 — the two-byte
character `é` is split mid-character — although the input itself encodes
cleanly. -/
theorem C3_truncation_splits_multibyte_character :
    fixed_width_core "aéxy".data 3 (some 3) = [97, 195, 226, 128, 166, 32] ∧
    validUtf8 (fixed_width_core "aéxy".data 3 (some 3)) = false ∧
    validUtf8 (encodeStr "aéxy".data) = true := by
  decide

lemma encodeStr_cons (c : Char) (l : List Char) :
    encodeStr (c :: l) = utf8Encode c ++ encodeStr l := by
  simp [encodeStr]

lemma encodeStr_replicate_a (n : Nat) :
    encodeStr (List.replicate n 'a') = List.replicate n 97 := by
  induction n with
  | zero => rfl
  | succ n ih =>
    rw [List.replicate_succ, encodeStr_cons, ih, List.replicate_succ]
    rfl

/-- C4 counterexample: with exactly one result, truncation is `None` yet a
1001-character value is still clipped — the full field value is not
shown. -/
lemma fixed_width_core_overflow (s : List Char) (lim : Nat) (h : 1000 < s.length) :
    fixed_width_core s lim none =
      (encodeStr (padTo lim (s.take 1000))).take
          ((encodeStr (padTo lim (s.take 1000))).length - 2) ++
        encodeStr ['…', ' '] := by
  simp only [fixed_width_core, Option.getD_none]
  rw [if_pos h]

/-- C4 counterexample: with exactly one result, truncation is `None` yet a
1001-character value is still clipped — the full field value is not
shown. -/
theorem C4_counterexample_single_result_still_truncates :
    displayTruncate 1 25 = none ∧
    fixed_width_core (List.replicate 1001 'a') 25 (displayTruncate 1 25) ≠
      encodeStr (padTo 25 (List.replicate 1001 'a')) := by
  refine ⟨rfl, ?_⟩
  intro h
  have h1 : (List.replicate 1001 'a').take 1000 = List.replicate 1000 'a' := by
    rw [List.take_replicate, show min 1000 1001 = 1000 by decide]
  have h2 : padTo 25 (List.replicate 1000 'a') = List.replicate 1000 'a' := by
    unfold padTo
    rw [List.length_replicate, show (25 - 1000 : Nat) = 0 by decide, List.replicate_zero,
      List.append_nil]
  have h3 : padTo 25 (List.replicate 1001 'a') = List.replicate 1001 'a' := by
    unfold padTo
    rw [List.length_replicate, show (25 - 1001 : Nat) = 0 by decide, List.replicate_zero,
      List.append_nil]
  have hover : 1000 < (List.replicate 1001 'a').length := by
    rw [List.length_replicate]
    decide
  have e1 : fixed_width_core (List.replicate 1001 'a') 25 none =
      (List.replicate 1000 97).take 998 ++ [226, 128, 166, 32] := by
    rw [fixed_width_core_overflow _ _ hover]
    simp only [h1, h2, encodeStr_replicate_a, List.length_replicate]
    rw [show (1000 - 2 : Nat) = 998 by decide,
      show encodeStr ['…', ' '] = [226, 128, 166, 32] by decide]
  have e2 : encodeStr (padTo 25 (List.replicate 1001 'a')) = List.replicate 1001 97 := by
    rw [h3, encodeStr_replicate_a]
  rw [show displayTruncate 1 25 = none from rfl, e1, e2] at h
  have hlen := congrArg List.length h
  rw [List.length_append, List.length_take, List.length_replicate, List.length_replicate] at hlen
  exact absurd hlen (by decide)

/-- C4 amended: the per-result column width is always clamped to
`[MIN_CHAR_COL, MAX_CHAR_COL]`; with more than one result values are
truncated at the column width, and with exactly one result the truncation
threshold is the fixed 1000-character sentinel instead — values of at most
1000 characters are rendered in full (padded to the column width). -/
theorem C4_amended_clamp_and_single_result_sentinel :
    (∀ termW n, MIN_CHAR_COL ≤ displayLim termW n ∧ displayLim termW n ≤ MAX_CHAR_COL) ∧
    (∀ n lim, n ≠ 1 → displayTruncate n lim = some lim) ∧
    (∀ lim, displayTruncate 1 lim = none) ∧
    (∀ (s : List Char) (lim : Nat), s.length ≤ 1000 →
      fixed_width_core s lim none = encodeStr (padTo lim s)) := by
  refine ⟨?_, ?_, ?_, ?_⟩
  · intro termW n
    unfold displayLim MIN_CHAR_COL MAX_CHAR_COL
    omega
  · intro n lim h
    simp [displayTruncate, h]
  · intro lim
    rfl
  · intro s lim h
    simp only [fixed_width_core, Option.getD_none]
    rw [List.take_of_length_le h, if_neg (by omega)]

/-- Witness for C4 (amended) at concrete inputs. -/
theorem C4_amended_witness :
    displayTruncate 2 30 = some 30 ∧
    fixed_width_core "ab".data 25 none = encodeStr (padTo 25 "ab".data) :=
  ⟨C4_amended_clamp_and_single_result_sentinel.2.1 2 30 (by decide),
   C4_amended_clamp_and_single_result_sentinel.2.2.2 "ab".data 25 (by decide)⟩

end GeoBaseMain
